import Mathlib

/-!
Shallow embedding of the halftone-dot pipeline of borud/points
(src/unnamed/part_000: `lumaBT709`, `lumaBT601`, `makeDots`).

Modelling conventions:
* `uint32` values are `Nat` with explicit `% 2^32` where Go arithmetic wraps
  (the per-pixel channel accumulators `rSum`, `gSum`, `bSum`).
* `float64` arithmetic is modelled over exact numbers: the luma computation
  and the threshold comparison use `ℚ` (all constants are decimal literals),
  and the radius computation, which involves `math.Sqrt` and `math.Pi`,
  uses `ℝ`.  Go's float-to-int conversion (truncation toward zero) is
  `ftrunc`.
* Go's `int` division truncates toward zero.  `makeDots` receives
  `boxSize : ℤ`; a run that reaches any loop body forces `boxSize ≥ 1`, and
  for `boxSize < 0` both `widthSteps` and `heightSteps` are `≤ 0`, so the
  grid walk is empty exactly as for `boxSize.toNat = 0` with `Nat`
  division.  The walk itself is therefore expressed over `bn = boxSize.toNat`.
* Go code that panics is modelled by `Option`: `makeDots` returns `none`
  when the source would panic (integer division by zero at
  `width / boxSize` for `boxSize = 0`, or `rSum /= uint32(boxSizeSquared)`
  when `uint32(boxSize*boxSize) = 0` and at least one region is visited).
-/

namespace Points

/-- Modulus of Go's `uint32` arithmetic. -/
def u32 : ℕ := 4294967296

/-- A decoded image: width, height, and per-pixel channel query.
`img.At(x, y).RGBA()` yields the triple `(r, g, b)` (alpha ignored by the
source); each channel is a `uint32` that the decoder keeps in `[0, 65535]`. -/
structure Image where
  width : ℕ
  height : ℕ
  px : ℕ → ℕ → ℕ × ℕ × ℕ

/-- The decoder contract: every channel of every pixel is at most 65535. -/
def Image.Valid (img : Image) : Prop :=
  ∀ x y, (img.px x y).1 ≤ 65535 ∧ (img.px x y).2.1 ≤ 65535 ∧ (img.px x y).2.2 ≤ 65535

/-- Red channel of a pixel. -/
def pxR (img : Image) (x y : ℕ) : ℕ := (img.px x y).1

/-- Green channel of a pixel. -/
def pxG (img : Image) (x y : ℕ) : ℕ := (img.px x y).2.1

/-- Blue channel of a pixel. -/
def pxB (img : Image) (x y : ℕ) : ℕ := (img.px x y).2.2

/-- Package-level flags of the source read inside `makeDots` (the `bt701`
flag selects the luma function at line 104 of the source). -/
structure Globals where
  bt701 : Bool

/-- Source: `lumaBT709(r, g, b uint32) float64`, line 62.
`((0.2126 * float64(r)) + (0.7152 * float64(g)) + (0.0722 * float64(b))) / 255.0`. -/
def lumaBT709 (r g b : ℕ) : ℚ :=
  ((0.2126 * (r : ℚ)) + (0.7152 * (g : ℚ)) + (0.0722 * (b : ℚ))) / 255.0

/-- Source: `lumaBT601(r, g, b uint32) float64`, line 70.
`((0.299 * float64(r)) + (0.587 * float64(g)) + (0.144 * float64(b))) / 255.0`. -/
def lumaBT601 (r g b : ℕ) : ℚ :=
  ((0.299 * (r : ℚ)) + (0.587 * (g : ℚ)) + (0.144 * (b : ℚ))) / 255.0

/-- One channel accumulator of the region loop (source lines 114-126):
`rSum += r` over `i, j < boxSize` at pixel `(x*boxSize+i, y*boxSize+j)`,
with `uint32` wraparound at every addition.  The three Go accumulators are
three instances of this definition with `f` the respective channel. -/
def regionSum (f : ℕ → ℕ → ℕ) (bn x y : ℕ) : ℕ :=
  (List.range bn).foldl
    (fun acc i =>
      (List.range bn).foldl
        (fun acc2 j => (acc2 + f (x * bn + i) (y * bn + j)) % u32) acc) 0

/-- The exact (unwrapped) channel total over a region, for comparison with
the wrapped accumulator. -/
def regionTotal (f : ℕ → ℕ → ℕ) (bn x y : ℕ) : ℕ :=
  ((List.range bn).map
    (fun i => ((List.range bn).map (fun j => f (x * bn + i) (y * bn + j))).sum)).sum

/-- Channel rescaling of the source, lines 129-137: first
`rSum /= uint32(boxSizeSquared)`, then `rSum /= 0x101` (`0x101 = 257`),
both `uint32` truncating divisions. -/
def avgChannel (sum bsqU : ℕ) : ℕ := sum / bsqU / 257

/-- Average red channel of region `(x, y)` as the source computes it;
`(bn * bn) % u32` is `uint32(boxSizeSquared)`. -/
def avgR (img : Image) (bn x y : ℕ) : ℕ :=
  avgChannel (regionSum (pxR img) bn x y) ((bn * bn) % u32)

/-- Average green channel of region `(x, y)` as the source computes it. -/
def avgG (img : Image) (bn x y : ℕ) : ℕ :=
  avgChannel (regionSum (pxG img) bn x y) ((bn * bn) % u32)

/-- Average blue channel of region `(x, y)` as the source computes it. -/
def avgB (img : Image) (bn x y : ℕ) : ℕ :=
  avgChannel (regionSum (pxB img) bn x y) ((bn * bn) % u32)

/-- Spec-side channel rescaling, modelled from the spec's words (design
note, section 9): sum the 16-bit channel values over the region, divide by
257, then divide by the region pixel count, with truncating integer
division, in that order. -/
def specAvgChannel (f : ℕ → ℕ → ℕ) (bn x y : ℕ) : ℕ :=
  regionTotal f bn x y / 257 / (bn * bn)

/-- Line 139 of the source: `luma := lumaFunc(rSum, gSum, bSum)` where
`lumaFunc` is `lumaBT709` when the package-level `bt701` flag is set and
`lumaBT601` otherwise (lines 102-106). -/
def regionLuma (g : Globals) (img : Image) (bn x y : ℕ) : ℚ :=
  (if g.bt701 then lumaBT709 else lumaBT601)
    (avgR img bn x y) (avgG img bn x y) (avgB img bn x y)

/-- Go's float64-to-int conversion: truncation toward zero. -/
noncomputable def ftrunc (x : ℝ) : ℤ := if 0 ≤ x then ⌊x⌋ else ⌈x⌉

/-- Linear sizing policy, source line 151:
`radius = (1.0 - luma) * float64(boxHalf*scale)`. -/
noncomputable def radiusLinear (luma : ℚ) (boxHalf : ℕ) (s : ℤ) : ℝ :=
  (1 - (luma : ℝ)) * ((((boxHalf : ℤ) * s : ℤ)) : ℝ)

/-- Area sizing policy, source line 149:
`radius = math.Sqrt((1.0-luma)/math.Pi) * 1.7 * float64(boxHalf*scale)`. -/
noncomputable def radiusArea (luma : ℚ) (boxHalf : ℕ) (s : ℤ) : ℝ :=
  Real.sqrt ((1 - (luma : ℝ)) / Real.pi) * 1.7 * ((((boxHalf : ℤ) * s : ℤ)) : ℝ)

/-- Two-digit lowercase hex of a channel value, Go's `%02x`. -/
def hex2 (n : ℕ) : String :=
  ⟨List.replicate (2 - (Nat.toDigits 16 n).length) '0' ++ Nat.toDigits 16 n⟩

/-- The fill style the source emits in color mode, line 155:
`fmt.Sprintf("fill:#%02x%02x%02x;stroke:none", rSum, gSum, bSum)`. -/
def hexFill (r g b : ℕ) : String :=
  "fill:#" ++ hex2 r ++ hex2 g ++ hex2 b ++ ";stroke:none"

/-- One emitted circle: `canvas.Circle(cx, cy, radius, fill)`. -/
structure Dot where
  cx : ℤ
  cy : ℤ
  radius : ℤ
  fill : String

/-- Processing of one grid cell `(x, y)`, source lines 114-158: average the
region, compute its luma, skip if `luma >= lumaThreshold`, otherwise emit a
circle at `(((x*boxSize)+boxHalf)*scale, ((y*boxSize)+boxHalf)*scale)` with
radius `int(radius)` under the selected sizing policy and the selected fill
style.  `boxHalf = boxSize / 2` by truncating integer division. -/
noncomputable def regionDot (g : Globals) (img : Image) (bn : ℕ) (t : ℚ)
    (color : Bool) (s : ℤ) (lumaArea : Bool) (x y : ℕ) : Option Dot :=
  if t ≤ regionLuma g img bn x y then none
  else some
    { cx := ((x * bn + bn / 2 : ℕ) : ℤ) * s
      cy := ((y * bn + bn / 2 : ℕ) : ℤ) * s
      radius := ftrunc (if lumaArea then radiusArea (regionLuma g img bn x y) (bn / 2) s
                        else radiusLinear (regionLuma g img bn x y) (bn / 2) s)
      fill := if color then hexFill (avgR img bn x y) (avgG img bn x y) (avgB img bn x y)
              else "fill:black;stroke:none" }

/-- The grid walk order of the source, lines 111-112: `x` over
`widthSteps` in the outer loop, `y` over `heightSteps` in the inner loop. -/
def gridIndices (ws hs : ℕ) : List (ℕ × ℕ) :=
  (List.range ws).flatMap (fun x => (List.range hs).map (fun y => (x, y)))

/-- The circles emitted by the grid walk, in emission order.
`widthSteps = width / boxSize` and `heightSteps = height / boxSize`
(source lines 99-100). -/
noncomputable def gridDots (g : Globals) (img : Image) (bn : ℕ) (t : ℚ)
    (color : Bool) (s : ℤ) (lumaArea : Bool) : List Dot :=
  (gridIndices (img.width / bn) (img.height / bn)).filterMap
    (fun p => regionDot g img bn t color s lumaArea p.1 p.2)

/-- Source: `makeDots(img, boxSize, lumaThreshold, color, bt709, outputFileName, scale, lumaArea)`,
line 77.  The `bt709` parameter is received but the body selects the luma
function from the package-level `bt701` flag (line 104).  Result `none`
models a run-time panic: Go integer division by zero at
`width / boxSize` when `boxSize = 0`, or at `rSum /= uint32(boxSizeSquared)`
when that `uint32` divisor is `0` and the loops visit at least one region.
Otherwise the emitted circles are returned in order. -/
noncomputable def makeDots (g : Globals) (img : Image) (boxSize : ℤ) (t : ℚ)
    (color : Bool) (bt709 : Bool) (s : ℤ) (lumaArea : Bool) : Option (List Dot) :=
  if boxSize = 0 then none
  else if (boxSize.toNat * boxSize.toNat) % u32 = 0 ∧
          0 < img.width / boxSize.toNat ∧ 0 < img.height / boxSize.toNat then none
  else some (gridDots g img boxSize.toNat t color s lumaArea)

/-- An all-constant image, used for concrete scenarios. -/
def constImage (w h c : ℕ) : Image := ⟨w, h, fun _ _ => (c, c, c)⟩

/-! Helper lemmas about the wrapped accumulators. -/

lemma u32_pos : 0 < u32 := by decide

lemma foldl_addU32 {α : Type} (f : α → ℕ) (l : List α) (acc : ℕ) (h : acc < u32) :
    l.foldl (fun a x => (a + f x) % u32) acc = (acc + (l.map f).sum) % u32 := by
  induction l generalizing acc with
  | nil => simp [Nat.mod_eq_of_lt h]
  | cons x xs ih =>
      simp only [List.foldl_cons, List.map_cons, List.sum_cons]
      rw [ih ((acc + f x) % u32) (Nat.mod_lt _ u32_pos), Nat.mod_add_mod, Nat.add_assoc]

lemma nested_foldl_addU32 (F : ℕ → ℕ → ℕ) (rows : List ℕ) (cols : ℕ → List ℕ)
    (acc : ℕ) (h : acc < u32) :
    rows.foldl (fun a i => (cols i).foldl (fun a2 j => (a2 + F i j) % u32) a) acc
      = (acc + (rows.map (fun i => ((cols i).map (F i)).sum)).sum) % u32 := by
  induction rows generalizing acc with
  | nil => simp [Nat.mod_eq_of_lt h]
  | cons r rs ih =>
      simp only [List.foldl_cons, List.map_cons, List.sum_cons]
      rw [foldl_addU32 (F r) (cols r) acc h, ih _ (Nat.mod_lt _ u32_pos),
        Nat.mod_add_mod, Nat.add_assoc]

/-- The wrapped region accumulator equals the exact total reduced
modulo `2^32`. -/
lemma regionSum_eq (f : ℕ → ℕ → ℕ) (bn x y : ℕ) :
    regionSum f bn x y = regionTotal f bn x y % u32 := by
  unfold regionSum regionTotal
  simpa using
    nested_foldl_addU32 (fun i j => f (x * bn + i) (y * bn + j))
      (List.range bn) (fun _ => List.range bn) 0 u32_pos

lemma sum_map_const {α : Type} (l : List α) (c : ℕ) :
    (l.map (fun _ => c)).sum = l.length * c := by
  induction l with
  | nil => simp
  | cons a l ih => simp [ih, Nat.succ_mul, Nat.add_comm]

lemma regionTotal_const (c bn x y : ℕ) :
    regionTotal (fun _ _ => c) bn x y = bn * bn * c := by
  unfold regionTotal
  simp only [sum_map_const, List.length_range]
  rw [Nat.mul_assoc]

lemma regionSum_const (c bn x y : ℕ) :
    regionSum (fun _ _ => c) bn x y = (bn * bn * c) % u32 := by
  rw [regionSum_eq, regionTotal_const]

/-! Helper lemmas about luma and the suppression rule. -/

lemma lumaBT601_nonneg (r g b : ℕ) : 0 ≤ lumaBT601 r g b := by
  unfold lumaBT601
  positivity

lemma lumaBT709_nonneg (r g b : ℕ) : 0 ≤ lumaBT709 r g b := by
  unfold lumaBT709
  positivity

lemma regionLuma_nonneg (g : Globals) (img : Image) (bn x y : ℕ) :
    0 ≤ regionLuma g img bn x y := by
  unfold regionLuma
  cases hg : g.bt701 with
  | false => exact lumaBT601_nonneg _ _ _
  | true => exact lumaBT709_nonneg _ _ _

/-- A cell is dropped exactly when `luma >= lumaThreshold` (source line 140). -/
lemma regionDot_eq_none_iff (g : Globals) (img : Image) (bn : ℕ) (t : ℚ)
    (color : Bool) (s : ℤ) (lumaArea : Bool) (x y : ℕ) :
    regionDot g img bn t color s lumaArea x y = none ↔ t ≤ regionLuma g img bn x y := by
  unfold regionDot
  split <;> simp_all

/-! ## Claim theorems -/

/-- C1: the claim says both luma policies return `v/255` on the
equal-channel triple `(v, v, v)` because their weights sum to `1.0`.  For
BT.709 this holds exactly (weights `0.2126 + 0.7152 + 0.0722 = 1`), but the
source's BT.601 weights are `0.299 + 0.587 + 0.144 = 1.03`, so
`lumaBT601 255 255 255 = 103/100 ≠ 255/255`: the code contradicts its own
comment that the value returned is between `0.0` and `1.0` (the standard
BT.601 blue weight is `0.114`, the source has `0.144`). -/
theorem c1_equal_channel_luma :
    (∀ v : ℕ, lumaBT709 v v v = (v : ℚ) / 255) ∧
    lumaBT601 255 255 255 = 103 / 100 ∧
    lumaBT601 255 255 255 ≠ (255 : ℚ) / 255 := by
  refine ⟨fun v => ?_, by norm_num [lumaBT601], by norm_num [lumaBT601]⟩
  unfold lumaBT709
  ring

/-- C5: the claim says both luma functions map 0-255 inputs into
`[0.0, 1.0]`.  BT.709 does; BT.601 is nonnegative but exceeds `1.0` at the
pure-white input `(255, 255, 255)` because the source's weights sum to
`1.03`, contradicting the function's own doc comment. -/
theorem c5_luma_range_code_bug :
    (∀ r g b : ℕ, r ≤ 255 → g ≤ 255 → b ≤ 255 →
      0 ≤ lumaBT709 r g b ∧ lumaBT709 r g b ≤ 1) ∧
    (∀ r g b : ℕ, 0 ≤ lumaBT601 r g b) ∧
    1 < lumaBT601 255 255 255 := by
  refine ⟨fun r g b hr hg hb => ⟨lumaBT709_nonneg r g b, ?_⟩,
    lumaBT601_nonneg, by norm_num [lumaBT601]⟩
  unfold lumaBT709
  rw [div_le_one (by norm_num)]
  have hr1 : (r : ℚ) ≤ 255 := by exact_mod_cast hr
  have hg1 : (g : ℚ) ≤ 255 := by exact_mod_cast hg
  have hb1 : (b : ℚ) ≤ 255 := by exact_mod_cast hb
  linarith

/-- Witness for C5 at the concrete input `(255, 255, 255)`. -/
theorem c5_luma_range_code_bug_witness :
    0 ≤ lumaBT709 255 255 255 ∧ lumaBT709 255 255 255 ≤ 1 :=
  c5_luma_range_code_bug.1 255 255 255 (by decide) (by decide) (by decide)

/-- C6: a region's dot is suppressed exactly when its luma is at least the
threshold (inclusive); with threshold `0.0` no dot is ever emitted (luma is
always nonnegative); with threshold `1.0` a cell is emitted precisely when
its luma is strictly below `1.0`. -/
theorem c6_threshold_rule :
    (∀ (g : Globals) (img : Image) (bn : ℕ) (t : ℚ) (color : Bool) (s : ℤ)
        (lumaArea : Bool) (x y : ℕ),
      regionDot g img bn t color s lumaArea x y = none ↔
        t ≤ regionLuma g img bn x y) ∧
    (∀ (g : Globals) (img : Image) (bn : ℕ) (color : Bool) (s : ℤ)
        (lumaArea : Bool),
      gridDots g img bn 0 color s lumaArea = []) ∧
    (∀ (g : Globals) (img : Image) (bn : ℕ) (color : Bool) (s : ℤ)
        (lumaArea : Bool) (x y : ℕ),
      regionDot g img bn 1 color s lumaArea x y ≠ none ↔
        regionLuma g img bn x y < 1) := by
  refine ⟨regionDot_eq_none_iff, fun g img bn color s lumaArea => ?_,
    fun g img bn color s lumaArea x y => ?_⟩
  · unfold gridDots
    rw [List.filterMap_eq_nil_iff]
    intro p _
    exact (regionDot_eq_none_iff g img bn 0 color s lumaArea p.1 p.2).2
      (regionLuma_nonneg g img bn p.1 p.2)
  · rw [not_iff_comm, not_lt, ← regionDot_eq_none_iff g img bn 1 color s lumaArea x y]

/-- C2 fails as stated: the accumulators are `uint32` and wrap.  On a
257×257 image whose pixels are all 65535 (16-bit pure white) with box size
257, the exact channel sum is `257² * 65535 = 4328521215 ≥ 2³²`, the
wrapped accumulator is `33553919`, and the emitted channel value is `1`
while the claim's computation yields `255`. -/
theorem c2_counterexample :
    avgChannel (regionSum (pxR (constImage 257 257 65535)) 257 0 0) ((257 * 257) % u32)
      ≠ specAvgChannel (pxR (constImage 257 257 65535)) 257 0 0 := by
  have hpx : pxR (constImage 257 257 65535) = fun _ _ => 65535 := rfl
  rw [hpx, regionSum_const]
  unfold specAvgChannel
  rw [regionTotal_const]
  unfold avgChannel
  decide

/-- C2 (amended): provided the exact channel sum of the region and the
squared box size both fit in 32 bits, the emitted 8-bit channel value
equals the claim's computation — sum, divide by 257, divide by the pixel
count, truncating division — even though the source divides in the other
order (pixel count first, then 257): the two truncating orders agree. -/
theorem c2_rescaling_order (f : ℕ → ℕ → ℕ) (bn x y : ℕ)
    (hsum : regionTotal f bn x y < u32) (hbsq : bn * bn < u32) :
    avgChannel (regionSum f bn x y) ((bn * bn) % u32) = specAvgChannel f bn x y := by
  unfold avgChannel specAvgChannel
  rw [regionSum_eq, Nat.mod_eq_of_lt hsum, Nat.mod_eq_of_lt hbsq,
    Nat.div_div_eq_div_mul, Nat.div_div_eq_div_mul, Nat.mul_comm (bn * bn) 257]

/-- Witness for C2 on a concrete in-range region: a 2×2 all-white 16-bit
image with box size 2. -/
theorem c2_rescaling_order_witness :
    avgChannel (regionSum (pxR (constImage 2 2 65535)) 2 0 0) ((2 * 2) % u32)
      = specAvgChannel (pxR (constImage 2 2 65535)) 2 0 0 :=
  c2_rescaling_order (pxR (constImage 2 2 65535)) 2 0 0 (by decide) (by decide)

/-- C3 fails as stated: at `luma = 0` (with `boxHalf = 1`, `scale = 1`) the
area policy's radius is `1.7/√π ≈ 0.959`, strictly smaller than the linear
policy's radius `1`, because `1.7 < √π`. -/
theorem c3_counterexample : radiusArea 0 1 1 < radiusLinear 0 1 1 := by
  have key : Real.sqrt (1 / Real.pi) * 1.7 < 1 := by
    set q := Real.sqrt (1 / Real.pi) with hq
    have hq2 : q ^ 2 = 1 / Real.pi := Real.sq_sqrt (by positivity)
    have hq2' : q ^ 2 * Real.pi = 1 := by
      rw [hq2]
      field_simp
    have hq0 : 0 ≤ q := Real.sqrt_nonneg _
    nlinarith [sq_nonneg q, Real.pi_gt_three]
  have ha : radiusArea 0 1 1 = Real.sqrt (1 / Real.pi) * 1.7 := by
    unfold radiusArea
    norm_num
  have hl : radiusLinear 0 1 1 = 1 := by
    unfold radiusLinear
    norm_num
  rw [ha, hl]
  exact key

/-- C3 (amended): the area policy is strictly larger than the linear policy
exactly on the high-luma part of the range: whenever
`1 - 1.7²/π < luma < 1` (the counterexample shows the bound is needed;
`1 - 2.89/π ≈ 0.080`) with `boxHalf > 0` and `scale > 0`; and at
`luma = 1.0` both policies yield radius `0`. -/
theorem c3_area_vs_linear :
    (∀ (luma : ℚ) (bh : ℕ) (s : ℤ),
      1 - 2.89 / Real.pi < (luma : ℝ) → luma < 1 → 0 < bh → 0 < s →
      radiusLinear luma bh s < radiusArea luma bh s) ∧
    (∀ (bh : ℕ) (s : ℤ), radiusLinear 1 bh s = 0 ∧ radiusArea 1 bh s = 0) := by
  constructor
  · intro luma bh s h1 h2 hbh hs
    unfold radiusArea radiusLinear
    have hπ := Real.pi_pos
    have hl1 : (luma : ℝ) < 1 := by exact_mod_cast h2
    have ht0 : 0 < 1 - (luma : ℝ) := by linarith
    have htu : (1 - (luma : ℝ)) * Real.pi < 2.89 := by
      have hd : 1 - (luma : ℝ) < 2.89 / Real.pi := by linarith
      exact (lt_div_iff₀ hπ).mp hd
    have hc : (0 : ℝ) < (((bh : ℤ) * s : ℤ) : ℝ) := by
      have hz : (0 : ℤ) < (bh : ℤ) * s := mul_pos (by exact_mod_cast hbh) hs
      exact_mod_cast hz
    set q := Real.sqrt ((1 - (luma : ℝ)) / Real.pi) with hqdef
    have hq2 : q ^ 2 = (1 - (luma : ℝ)) / Real.pi := Real.sq_sqrt (by positivity)
    have hq2' : q ^ 2 * Real.pi = 1 - (luma : ℝ) := by
      rw [hq2]
      field_simp
    have hq0 : 0 < q := Real.sqrt_pos.mpr (by positivity)
    have hA : q * Real.pi < 1.7 := by
      nlinarith [sq_nonneg (1.7 - q * Real.pi), mul_pos hq0 hπ]
    have hkey : 1 - (luma : ℝ) < q * 1.7 := by
      nlinarith [mul_pos hq0 hπ]
    exact mul_lt_mul_of_pos_right hkey hc
  · intro bh s
    constructor
    · unfold radiusLinear
      norm_num
    · unfold radiusArea
      norm_num

/-- Witness for C3 at `luma = 1/2`, `boxHalf = 1`, `scale = 1`. -/
theorem c3_area_vs_linear_witness :
    radiusLinear (1/2) 1 1 < radiusArea (1/2) 1 1 :=
  c3_area_vs_linear.1 (1/2) 1 1
    (by
      have h : (1 : ℝ) / 2 < 2.89 / Real.pi := by
        rw [div_lt_div_iff₀ (by norm_num) Real.pi_pos]
        nlinarith [Real.pi_lt_d2]
      push_cast
      linarith)
    (by norm_num) (by decide) (by decide)

lemma gridIndices_eq_nil (ws hs : ℕ) (h : ws = 0 ∨ hs = 0) :
    gridIndices ws hs = [] := by
  rcases h with h | h <;> simp [gridIndices, h]

/-- C4 fails as stated at box size exactly 0: `widthSteps := width / boxSize`
divides by zero, a run-time panic in Go (`none` in this embedding), not an
empty output. -/
theorem c4_counterexample :
    makeDots ⟨false⟩ (constImage 100 100 0) 0 1 true false 1 false = none := by
  simp [makeDots]

/-- C4 (amended): a box size that is strictly negative or strictly greater
than the image's smaller dimension yields zero regions and an empty output
with no failure; box size exactly 0 instead panics on integer division by
zero. -/
theorem c4_degenerate_grid (g : Globals) (img : Image) (b : ℤ) (t : ℚ)
    (color bt709 : Bool) (s : ℤ) (lumaArea : Bool)
    (h : b < 0 ∨ ((min img.width img.height : ℕ) : ℤ) < b) :
    makeDots g img b t color bt709 s lumaArea = some [] := by
  have hsteps : img.width / b.toNat = 0 ∨ img.height / b.toNat = 0 := by
    rcases h with h | h
    · left
      rw [Int.toNat_of_nonpos h.le, Nat.div_zero]
    · have hbpos : 0 < b := lt_of_le_of_lt (Int.natCast_nonneg _) h
      have hmin : min img.width img.height < b.toNat := by
        have := (Int.toNat_lt_toNat hbpos).mpr h
        simpa using this
      rcases min_lt_iff.mp hmin with hw | hh
      · exact Or.inl (Nat.div_eq_of_lt hw)
      · exact Or.inr (Nat.div_eq_of_lt hh)
  have hb0 : b ≠ 0 := by
    rcases h with h | h
    · exact h.ne
    · exact (lt_of_le_of_lt (Int.natCast_nonneg _) h).ne'
  unfold makeDots
  rw [if_neg hb0, if_neg (by rcases hsteps with h0 | h0 <;> simp [h0])]
  unfold gridDots
  rw [gridIndices_eq_nil _ _ (by rcases hsteps with h0 | h0 <;> simp [h0])]
  rfl

/-- Witness for C4 on the spec's scenario: a 30×30 image with box size 50. -/
theorem c4_degenerate_grid_witness :
    makeDots ⟨false⟩ (constImage 30 30 0) 50 1 true false 1 false = some [] :=
  c4_degenerate_grid ⟨false⟩ (constImage 30 30 0) 50 1 true false 1 false (by decide)

lemma mem_gridIndices (ws hs x y : ℕ) :
    (x, y) ∈ gridIndices ws hs ↔ x < ws ∧ y < hs := by
  simp [gridIndices, eq_comm]

/-! Helper lemmas for all-black regions (used by C7 and C8). -/

lemma avgR_const_zero (w h bn x y : ℕ) : avgR (constImage w h 0) bn x y = 0 := by
  unfold avgR
  rw [show pxR (constImage w h 0) = (fun _ _ => 0) from rfl, regionSum_const]
  simp [avgChannel]

lemma avgG_const_zero (w h bn x y : ℕ) : avgG (constImage w h 0) bn x y = 0 := by
  unfold avgG
  rw [show pxG (constImage w h 0) = (fun _ _ => 0) from rfl, regionSum_const]
  simp [avgChannel]

lemma avgB_const_zero (w h bn x y : ℕ) : avgB (constImage w h 0) bn x y = 0 := by
  unfold avgB
  rw [show pxB (constImage w h 0) = (fun _ _ => 0) from rfl, regionSum_const]
  simp [avgChannel]

lemma regionLuma_black (g : Globals) (w h bn x y : ℕ) :
    regionLuma g (constImage w h 0) bn x y = 0 := by
  unfold regionLuma
  rw [avgR_const_zero, avgG_const_zero, avgB_const_zero]
  cases hg : g.bt701 <;> norm_num [hg, lumaBT601, lumaBT709]

lemma radiusLinear_zero (bh : ℕ) (s : ℤ) :
    radiusLinear 0 bh s = (((bh : ℤ) * s : ℤ) : ℝ) := by
  unfold radiusLinear
  norm_num

lemma hexFill_zero : hexFill 0 0 0 = "fill:#000000;stroke:none" := by decide

lemma ftrunc_intCast (n : ℤ) : ftrunc ((n : ℤ) : ℝ) = n := by
  unfold ftrunc
  split
  · exact Int.floor_intCast n
  · exact Int.ceil_intCast n

/-- C7: every region whose luma is below the threshold contributes to the
output a circle centered at `((x*boxSize+boxHalf)*scale, (y*boxSize+boxHalf)*scale)`
whose integer radius is the truncation of the real-valued policy formula at
`boxHalf = boxSize / 2` (truncating division); in particular a formula
value that truncates to `0` still yields an emitted zero-radius circle. -/
theorem c7_radius_truncation (g : Globals) (img : Image) (bn : ℕ) (t : ℚ)
    (color : Bool) (s : ℤ) (lumaArea : Bool) (x y : ℕ)
    (hx : x < img.width / bn) (hy : y < img.height / bn)
    (hlt : regionLuma g img bn x y < t) :
    ({ cx := ((x * bn + bn / 2 : ℕ) : ℤ) * s
       cy := ((y * bn + bn / 2 : ℕ) : ℤ) * s
       radius := ftrunc (if lumaArea then radiusArea (regionLuma g img bn x y) (bn / 2) s
                         else radiusLinear (regionLuma g img bn x y) (bn / 2) s)
       fill := if color then hexFill (avgR img bn x y) (avgG img bn x y) (avgB img bn x y)
               else "fill:black;stroke:none" } : Dot) ∈
      gridDots g img bn t color s lumaArea := by
  unfold gridDots
  rw [List.mem_filterMap]
  refine ⟨(x, y), (mem_gridIndices _ _ x y).2 ⟨hx, hy⟩, ?_⟩
  unfold regionDot
  rw [if_neg (not_le.mpr hlt)]

/-- Witness for C7 on a 1×1 black image with box size 1: the lone region
has luma `0 < 1`, `boxHalf = 1 / 2 = 0`, hence formula value `0`, and the
zero-radius circle is emitted. -/
theorem c7_radius_truncation_witness :
    ({ cx := ((0 * 1 + 1 / 2 : ℕ) : ℤ) * 1
       cy := ((0 * 1 + 1 / 2 : ℕ) : ℤ) * 1
       radius := ftrunc (if false then
                   radiusArea (regionLuma ⟨false⟩ (constImage 1 1 0) 1 0 0) (1 / 2) 1
                 else radiusLinear (regionLuma ⟨false⟩ (constImage 1 1 0) 1 0 0) (1 / 2) 1)
       fill := if true then
                 hexFill (avgR (constImage 1 1 0) 1 0 0) (avgG (constImage 1 1 0) 1 0 0)
                   (avgB (constImage 1 1 0) 1 0 0)
               else "fill:black;stroke:none" } : Dot) ∈
      gridDots ⟨false⟩ (constImage 1 1 0) 1 1 true 1 false :=
  c7_radius_truncation ⟨false⟩ (constImage 1 1 0) 1 1 true 1 false 0 0
    (by decide) (by decide) (by simp [regionLuma_black
      (Globals.mk false) 1 1 1 0 0])

lemma regionDot_black (g : Globals) (t : ℚ) (c : Bool) (s : ℤ) (ht : 0 < t)
    (x y : ℕ) :
    regionDot g (constImage 100 100 0) 50 t c s false x y =
      some { cx := ((x * 50 + 25 : ℕ) : ℤ) * s
             cy := ((y * 50 + 25 : ℕ) : ℤ) * s
             radius := 25 * s
             fill := if c then "fill:#000000;stroke:none"
                     else "fill:black;stroke:none" } := by
  unfold regionDot
  rw [regionLuma_black, avgR_const_zero, avgG_const_zero, avgB_const_zero,
    if_neg (not_le.mpr ht)]
  simp only [Bool.false_eq_true, if_false, radiusLinear_zero, ftrunc_intCast, hexFill_zero]
  norm_num

/-- C8: on a 100×100 all-black image with box size 50 and a positive
threshold, the walk visits exactly 4 regions, each with average color
`(0, 0, 0)` and luma `0`, and under the linear policy emits for each a
circle of radius `boxHalf * scale = 25 * scale`, filled `#000000` in color
mode and `black` in monochrome mode. -/
theorem c8_black_image_scenario (g : Globals) (t : ℚ) (c : Bool)
    (bt709 : Bool) (s : ℤ) (ht : 0 < t) :
    (gridIndices ((constImage 100 100 0).width / 50)
        ((constImage 100 100 0).height / 50)).length = 4 ∧
    (∀ x y : ℕ,
      avgR (constImage 100 100 0) 50 x y = 0 ∧
      avgG (constImage 100 100 0) 50 x y = 0 ∧
      avgB (constImage 100 100 0) 50 x y = 0 ∧
      regionLuma g (constImage 100 100 0) 50 x y = 0) ∧
    makeDots g (constImage 100 100 0) 50 t c bt709 s false =
      some [⟨25 * s, 25 * s, 25 * s,
              if c then "fill:#000000;stroke:none" else "fill:black;stroke:none"⟩,
            ⟨25 * s, 75 * s, 25 * s,
              if c then "fill:#000000;stroke:none" else "fill:black;stroke:none"⟩,
            ⟨75 * s, 25 * s, 25 * s,
              if c then "fill:#000000;stroke:none" else "fill:black;stroke:none"⟩,
            ⟨75 * s, 75 * s, 25 * s,
              if c then "fill:#000000;stroke:none" else "fill:black;stroke:none"⟩] := by
  refine ⟨by decide,
    fun x y => ⟨avgR_const_zero _ _ _ _ _, avgG_const_zero _ _ _ _ _,
      avgB_const_zero _ _ _ _ _, regionLuma_black _ _ _ _ _ _⟩, ?_⟩
  unfold makeDots
  rw [if_neg (by decide : ¬((50 : ℤ) = 0)), if_neg (by decide)]
  rw [show (50 : ℤ).toNat = 50 from rfl]
  unfold gridDots
  rw [show gridIndices ((constImage 100 100 0).width / 50)
        ((constImage 100 100 0).height / 50)
      = [(0, 0), (0, 1), (1, 0), (1, 1)] from by decide]
  simp only [List.filterMap_cons, List.filterMap_nil, regionDot_black g t c s ht]
  norm_num

/-- Witness for C8 at threshold `1`, scale `1`, color mode, BT.601. -/
theorem c8_black_image_scenario_witness :
    (gridIndices ((constImage 100 100 0).width / 50)
        ((constImage 100 100 0).height / 50)).length = 4 ∧
    (∀ x y : ℕ,
      avgR (constImage 100 100 0) 50 x y = 0 ∧
      avgG (constImage 100 100 0) 50 x y = 0 ∧
      avgB (constImage 100 100 0) 50 x y = 0 ∧
      regionLuma ⟨false⟩ (constImage 100 100 0) 50 x y = 0) ∧
    makeDots ⟨false⟩ (constImage 100 100 0) 50 1 true false 1 false =
      some [⟨25 * 1, 25 * 1, 25 * 1,
              if true then "fill:#000000;stroke:none" else "fill:black;stroke:none"⟩,
            ⟨25 * 1, 75 * 1, 25 * 1,
              if true then "fill:#000000;stroke:none" else "fill:black;stroke:none"⟩,
            ⟨75 * 1, 25 * 1, 25 * 1,
              if true then "fill:#000000;stroke:none" else "fill:black;stroke:none"⟩,
            ⟨75 * 1, 75 * 1, 25 * 1,
              if true then "fill:#000000;stroke:none" else "fill:black;stroke:none"⟩] :=
  c8_black_image_scenario ⟨false⟩ 1 true false 1 (by norm_num)

/-- C9: the pipeline is a pure function of the image and the configuration
in this embedding (the source reads no mutable state during the walk), so
two runs on identical inputs produce identical circle sequences. -/
theorem c9_deterministic (g : Globals) (img : Image) (boxSize : ℤ) (t : ℚ)
    (color : Bool) (bt709 : Bool) (s : ℤ) (lumaArea : Bool) :
    makeDots g img boxSize t color bt709 s lumaArea =
      makeDots g img boxSize t color bt709 s lumaArea := rfl

/-- C10: the `bt709` parameter of `makeDots` is dead: the body selects the
luma function from the package-level `bt701` flag (source line 104), so
flipping the parameter never changes the output. -/
theorem c10_bt709_param_unused (g : Globals) (img : Image) (boxSize : ℤ)
    (t : ℚ) (color : Bool) (s : ℤ) (lumaArea : Bool) :
    makeDots g img boxSize t color true s lumaArea =
      makeDots g img boxSize t color false s lumaArea := rfl

end Points
